import Mathlib

/-!
Shallow embedding of the pflow stock-component catalog
(src/pflow/components.py) over a model of the runtime contract described in
the specification.  Each component's `run` body is translated directly from
the Python source; runtime primitives that live in `pflow.core` (which is not
part of the visible source tree) are modelled from the specification and each
such definition says so in its doc comment.
-/

namespace PFlow

/-- A holder of a packet: either a component body or the buffer of an
array-output-port slot.  Modelled from the spec: a packet is owned by exactly
one holder at a time (ownership invariant, spec section 3). -/
inductive Holder where
  | comp
  | outSlot (i : Nat)
deriving DecidableEq, Repr

/-- A packet: wraps a value and carries an identity (`pid`), standing for
Python object identity.  Modelled from the spec: a packet is a single-owner
envelope around a value (spec section 3). -/
structure Packet (α : Type) where
  value : α
  pid : Nat
deriving DecidableEq, Repr

/-- Modelled from the spec: a connection is a bounded FIFO queue; `send`
enqueues at the back (spec section 5, ordering guarantee). -/
structure Connection (α : Type) where
  buffer : List (Packet α)
deriving DecidableEq, Repr

/-- Modelled from the spec: sending on a connection enqueues the packet at
the back of the FIFO buffer. -/
def Connection.send (c : Connection α) (p : Packet α) : Connection α :=
  ⟨c.buffer ++ [p]⟩

/-- Send a whole list of packets in order on a connection. -/
def Connection.sendAll (c : Connection α) : List (Packet α) → Connection α
  | [] => c
  | p :: ps => (c.send p).sendAll ps

/-- Modelled from the spec: `receive` dequeues the next packet from the front
of the FIFO buffer; on an empty closed buffer it yields the closed
indicator (`none`) (spec section 4.2). -/
def Connection.receive (c : Connection α) : Option (Packet α × Connection α) :=
  match c.buffer with
  | [] => none
  | p :: rest => some (p, ⟨rest⟩)

/-- Drain a connection by receiving repeatedly until the closed indicator. -/
def Connection.drain : Connection α → List (Packet α)
  | ⟨[]⟩ => []
  | ⟨p :: rest⟩ => p :: Connection.drain ⟨rest⟩
termination_by c => c.buffer.length

/-- Modelled from the spec: iterating an array port of capacity `n` yields
its scalar member slots `0 .. n-1` in index order, skipping none, whether or
not a slot is connected (spec section 4.2). -/
def arraySlots (n : Nat) : List Nat := List.range n

/-! ## Repeat

```python
def run(self):
    packet = self.inputs['IN'].receive_packet()
    self.outputs['OUT'].send_packet(packet)
```

The scheduler re-invokes the one-shot body until the IN port closes; the
finite input list models the stream of packets IN yields before closure
(closing semantics, spec section 4.2). -/

/-- `Repeat.run` driven by the scheduler over the whole IN stream: each
invocation receives one packet and sends that same packet on OUT. -/
def Repeat.runAll : List (Packet α) → List (Packet α)
  | [] => []
  | p :: rest => p :: Repeat.runAll rest

/-! ## Drop and RegexFilter -/

/-- An observable packet-routing event of a filter/sink body: the packet was
sent on OUT, or explicitly discarded via `drop`. -/
inductive PEvent (α : Type) where
  | send (p : Packet α)
  | dropped (p : Packet α)
deriving DecidableEq, Repr

/-- `Drop.run` driven over the whole IN stream:

```python
def run(self):
    packet = self.inputs['IN'].receive_packet()
    self.drop(packet)
```
-/
def Drop.runAll : List (Packet α) → List (PEvent α)
  | [] => []
  | p :: rest => PEvent.dropped p :: Drop.runAll rest

/-- Modelled from the spec: the regex library is an external collaborator
(spec section 1); only the anchored-literal pattern class `"^lit"` used in
Scenario D is modelled.  `re.compile` strips the leading caret, keeping the
literal (strings are modelled as lists of characters). -/
def reCompileAnchoredLit (regex : List Char) : List Char := regex.drop 1

/-- Modelled from the spec: `search` of a compiled anchored literal succeeds
(returns a match, `some ()`) precisely when the literal is a prefix of the
subject string. -/
def reSearch (lit s : List Char) : Option Unit :=
  if lit.isPrefixOf s then some () else none

/-- The internal `while not self.is_terminated` loop of `RegexFilter.run`,
parameterised by the compiled pattern's match test:

```python
while not self.is_terminated:
    packet = self.inputs['IN'].receive_packet()
    if pattern.search(packet.value) is not None:
        self.outputs['OUT'].send_packet(packet)
    else:
        self.drop(packet)
```
-/
def RegexFilter.loop (m : List Char → Option Unit) :
    List (Packet (List Char)) → List (PEvent (List Char))
  | [] => []
  | p :: rest =>
    (if (m p.value).isSome then PEvent.send p else PEvent.dropped p)
      :: RegexFilter.loop m rest

/-- `RegexFilter.run`: receive the regex once from REGEX, compile it, then
loop over the IN stream sending matches and dropping non-matches. -/
def RegexFilter.run (regex : List Char) (inq : List (Packet (List Char))) :
    List (PEvent (List Char)) :=
  RegexFilter.loop (fun s => reSearch (reCompileAnchoredLit regex) s) inq

/-- The packets a filter trace sent on OUT, in order. -/
def sentPackets : List (PEvent α) → List (Packet α)
  | [] => []
  | PEvent.send p :: rest => p :: sentPackets rest
  | PEvent.dropped _ :: rest => sentPackets rest

/-- The packets a filter trace discarded via `drop`, in order. -/
def droppedPackets : List (PEvent α) → List (Packet α)
  | [] => []
  | PEvent.send _ :: rest => droppedPackets rest
  | PEvent.dropped p :: rest => p :: droppedPackets rest

/-! ## Sleep

```python
def run(self):
    delay_value = self.inputs['DELAY'].receive()
    if delay_value is None:
        delay_value = 0
    if delay_value == 0:
        self.log.warn('Using a %s component with 0 DELAY ...')
    while not self.is_terminated:
        packet = self.inputs['IN'].receive_packet()
        self.log.debug('Sleeping for %d seconds...')
        self.suspend(delay_value)
        self.outputs['OUT'].send_packet(packet)
```

`receive()` yielding the no-value sentinel is modelled by the `Option`
argument; the internal loop ends when IN closes (spec section 4.2), modelled
by exhausting the finite IN stream. -/

/-- The observable behaviour of one `Sleep.run` invocation: whether the
zero-delay warning was logged, the argument of each `suspend` call in order,
and the packets sent on OUT in order. -/
structure SleepTrace (α : Type) where
  warned : Bool
  suspends : List Int
  out : List (Packet α)
deriving DecidableEq, Repr

/-- The `while not self.is_terminated` loop of `Sleep.run`: per packet,
receive it, suspend for the delay, then send it on OUT. -/
def Sleep.loop (d : Int) : List (Packet α) → List Int × List (Packet α)
  | [] => ([], [])
  | p :: rest =>
    let r := Sleep.loop d rest
    (d :: r.1, p :: r.2)

/-- `Sleep.run`: receive the delay (possibly the no-value sentinel),
substitute 0 for the sentinel, warn when the delay is 0, then loop. -/
def Sleep.run (delayReceived : Option Int) (inq : List (Packet α)) :
    SleepTrace α :=
  let d := match delayReceived with
    | none => 0
    | some v => v
  let r := Sleep.loop d inq
  { warned := decide (d = 0), suspends := r.1, out := r.2 }

/-! ## Split

```python
def initialize(self):
    self.inputs.addPorts(InputPort('IN'))
    self.outputs.addPorts(ArrayOutputPort('OUT', 10))

def run(self):
    packet = self.inputs['IN'].receive_packet()
    for outp in self.outputs['OUT']:
        outp.send_packet(packet)
```
-/

/-- One delivery produced by a `send_packet` on an array-output-port slot:
the slot index the component sent on, the packet that the slot's consumer
ends up holding, and that packet's holder. -/
structure Delivery (α : Type) where
  slot : Nat
  packet : Packet α
  holder : Holder
deriving DecidableEq, Repr

/-- Modelled from the spec: `send_packet` on array slot `i` hands over an
independently owned copy of the packet — a packet with the same value but
its own identity, owned by slot `i`'s consumer side (Scenario B and the
single-owner invariant, spec section 3).  Fresh identities are modelled as
`x.pid + 1 + i`, distinct from the input packet and across slots. -/
def sendPacketToSlot (i : Nat) (x : Packet α) : Delivery α :=
  { slot := i, packet := { value := x.value, pid := x.pid + 1 + i },
    holder := Holder.outSlot i }

/-- One invocation of `Split.run`: receive packet `x` from IN, then send it
on every slot of the OUT array port (capacity 10) in iteration order.  The
body never consults slot connectivity, so the deliveries do not depend on
which slots are connected. -/
def Split.run (x : Packet α) : List (Delivery α) :=
  (arraySlots 10).map (fun i => sendPacketToSlot i x)

/-! ## Concat

```python
def initialize(self):
    self.inputs.addPorts(ArrayInputPort('IN', 10))
    self.outputs.addPorts(OutputPort('OUT'))

def run(self):
    for inp in self.inputs['IN']:
        packet = inp.read()
        self.outputs['OUT'].send_packet(packet)
```
-/

/-- An observable event of `Concat.run`: a read of one packet from an IN
array slot, or a send on OUT. -/
inductive CEvent (α : Type) where
  | readSlot (i : Nat) (p : Packet α)
  | send (p : Packet α)
deriving DecidableEq, Repr

/-- One invocation of `Concat.run`: for each IN slot in iteration order,
read one packet from that slot and send it on OUT.  Modelled from the spec:
`read` on slot `i` yields that slot's next pending packet, modelled by the
function `head` (FIFO per connection, spec section 5); iteration yields
slots `0..9` in index order (spec section 4.2). -/
def Concat.run (head : Nat → Packet α) : List (CEvent α) :=
  (arraySlots 10).flatMap
    (fun i => [CEvent.readSlot i (head i), CEvent.send (head i)])

/-- The slot indices a Concat trace read from, in order. -/
def readSlots : List (CEvent α) → List Nat
  | [] => []
  | CEvent.readSlot i _ :: rest => i :: readSlots rest
  | CEvent.send _ :: rest => readSlots rest

/-- The packets a Concat trace sent on OUT, in order. -/
def outPackets : List (CEvent α) → List (Packet α)
  | [] => []
  | CEvent.readSlot _ _ :: rest => outPackets rest
  | CEvent.send p :: rest => p :: outPackets rest

/-! ## Multiply

```python
def run(self):
    x = self.inputs['X'].receive()
    y = self.inputs['Y'].receive()
    result = int(x) * int(y)
    self.log.debug(...)
    self.outputs['OUT'].send(result)
```
-/

/-- A runtime value carried by `receive()`: the catalog feeds Multiply either
integers or strings. -/
inductive Value where
  | int (n : Int)
  | str (s : String)
deriving DecidableEq, Repr

/-- Modelled from the spec: Python's `int()` conversion is an external
library call; on an integer it is the identity, on a string it parses a
decimal integer, and on anything unconvertible it raises (`none`). -/
def pyInt : Value → Option Int
  | Value.int n => some n
  | Value.str s => s.toInt?

/-- One invocation of `Multiply.run`: receive one value from X and one from
Y (blocking, `none`, when a queue has none to give), convert both with
`int()` (failing, `none`, when a conversion raises), and send exactly the
product `int(x) * int(y)` on OUT. -/
def Multiply.run (xq yq : List Value) : Option (List Int) :=
  match xq, yq with
  | x :: _, y :: _ =>
    match pyInt x, pyInt y with
    | some a, some b => some [a * b]
    | _, _ => none
  | _, _ => none

/-! ## RandomNumberGenerator

```python
def run(self):
    prng = random.Random()
    seed_value = self.inputs['SEED'].receive()
    if seed_value is not None:
        prng.seed(seed_value)
    limit_value = self.inputs['LIMIT'].receive()
    i = 0
    while True:
        random_value = prng.randint(1, 100)
        ...
        packet = self.create_packet(random_value)
        self.outputs['OUT'].send_packet(packet)
        if limit_value is not None:
            i += 1
            if i >= limit_value:
                self.terminate()
                break
```

The PRNG is an external collaborator (spec section 1): it is modelled by a
function `prng : Nat → Int` giving the value of the i-th `randint` call
(already reflecting any seeding). -/

/-- An observable event of `RandomNumberGenerator.run`: a send on OUT, or
the `terminate()` call. -/
inductive RngEvent where
  | send (v : Int)
  | terminate
deriving DecidableEq, Repr

/-- The `while True` loop of `RandomNumberGenerator.run` when LIMIT yielded
an integer `L`: send the next random value, increment the counter, and stop
with `terminate()` once the counter reaches `L`.  (With LIMIT absent the
loop never ends and there is no run to model.) -/
def Rng.loop (prng : Nat → Int) (L : Int) (i : Nat) : List RngEvent :=
  if L ≤ (i : Int) + 1 then [RngEvent.send (prng i), RngEvent.terminate]
  else RngEvent.send (prng i) :: Rng.loop prng L (i + 1)
termination_by (L - i).toNat
decreasing_by
  simp only [not_le] at *
  omega

/-- `RandomNumberGenerator.run` with LIMIT yielding `L`: the loop starting
from counter 0. -/
def Rng.run (prng : Nat → Int) (L : Int) : List RngEvent :=
  Rng.loop prng L 0

/-- The values an Rng trace sent on OUT, in order. -/
def rngSends : List RngEvent → List Int
  | [] => []
  | RngEvent.send v :: rest => v :: rngSends rest
  | RngEvent.terminate :: rest => rngSends rest

/-! ### Helper lemmas -/

/-- `Repeat.runAll` reproduces its input stream. -/
theorem Repeat.runAll_eq (l : List (Packet α)) : Repeat.runAll l = l := by
  induction l with
  | nil => rfl
  | cons p rest ih => simp [Repeat.runAll, ih]

/-- Sending a list of packets appends them, in order, to the buffer. -/
theorem Connection.sendAll_buffer (b l : List (Packet α)) :
    (Connection.sendAll ⟨b⟩ l).buffer = b ++ l := by
  induction l generalizing b with
  | nil => simp [Connection.sendAll]
  | cons p rest ih => simp [Connection.sendAll, Connection.send, ih]

/-- Draining a connection yields exactly its buffer, front first. -/
theorem Connection.drain_eq_buffer (c : Connection α) :
    c.drain = c.buffer := by
  obtain ⟨b⟩ := c
  induction b with
  | nil => rw [Connection.drain]
  | cons p rest ih => rw [Connection.drain]; rw [ih]

/-- The `Sleep` loop suspends once per packet, for the given delay each
time, and forwards the packets unchanged and in order. -/
theorem Sleep.loop_replicates (d : Int) (l : List (Packet α)) :
    Sleep.loop d l = (List.replicate l.length d, l) := by
  induction l with
  | nil => rfl
  | cons p rest ih => simp [Sleep.loop, ih, List.replicate]

/-- A `Drop` trace contains no send events at all. -/
theorem Drop.no_sends (l : List (Packet α)) (p : Packet α) :
    PEvent.send p ∉ Drop.runAll l := by
  induction l with
  | nil => simp [Drop.runAll]
  | cons q rest ih => simp [Drop.runAll, ih]

/-- A packet the `RegexFilter` loop dropped did not match the pattern. -/
theorem RegexFilter.loop_dropped_not_matched (m : List Char → Option Unit)
    (inq : List (Packet (List Char))) (q : Packet (List Char))
    (hq : PEvent.dropped q ∈ RegexFilter.loop m inq) :
    (m q.value).isSome = false := by
  induction inq with
  | nil => simp [RegexFilter.loop] at hq
  | cons p rest ih =>
    rw [RegexFilter.loop] at hq
    rcases List.mem_cons.mp hq with h | h
    · by_cases hm : (m p.value).isSome
      · rw [if_pos hm] at h
        exact absurd h (by simp)
      · rw [if_neg hm] at h
        injection h with hqp
        rw [hqp]
        simpa using hm
    · exact ih h

/-- A packet the `RegexFilter` loop sent on OUT did match the pattern. -/
theorem RegexFilter.loop_sent_matched (m : List Char → Option Unit)
    (inq : List (Packet (List Char))) (q : Packet (List Char))
    (hq : PEvent.send q ∈ RegexFilter.loop m inq) :
    (m q.value).isSome = true := by
  induction inq with
  | nil => simp [RegexFilter.loop] at hq
  | cons p rest ih =>
    rw [RegexFilter.loop] at hq
    rcases List.mem_cons.mp hq with h | h
    · by_cases hm : (m p.value).isSome
      · rw [if_pos hm] at h
        injection h with hqp
        rw [hqp]
        exact hm
      · rw [if_neg hm] at h
        exact absurd h (by simp)
    · exact ih h

/-- The generator loop started at counter `i < L` sends the values at
indices `i .. L.toNat - 1` in order and then terminates. -/
theorem Rng.loop_sends_until_limit (prng : Nat → Int) (L : Int) (i : Nat)
    (h : (i : Int) < L) :
    Rng.loop prng L i =
      (List.range' i (L.toNat - i)).map (fun j => RngEvent.send (prng j)) ++
        [RngEvent.terminate] := by
  rw [Rng.loop]
  by_cases hle : L ≤ (i : Int) + 1
  · have h1 : L.toNat - i = 1 := by omega
    rw [if_pos hle, h1]
    rfl
  · have h2 : L.toNat - i = (L.toNat - (i + 1)) + 1 := by omega
    rw [if_neg hle, Rng.loop_sends_until_limit prng L (i + 1) (by omega), h2,
      List.range'_succ]
    simp
termination_by (L - i).toNat
decreasing_by
  simp only [not_le] at *
  omega

/-- Projecting an Rng trace of sends followed by terminate onto its sent
values recovers the sent values. -/
theorem rngSends_sendMap (f : Nat → Int) (l : List Nat) :
    rngSends (l.map (fun j => RngEvent.send (f j)) ++ [RngEvent.terminate]) =
      l.map f := by
  induction l with
  | nil => rfl
  | cons a t ih => simpa [rngSends] using ih

/-! ### Claim theorems -/

/-- C1: a Split component fed one packet `x` on IN sends, in one invocation
of its run body, an independently owned copy of `x` to every OUT slot — in
particular to both connected slots 0 and 1: every delivery carries `x`'s
value, is held by exactly the receiving slot, has a packet identity distinct
from `x` and from every other delivery (no two holders ever own the same
packet at once). -/
theorem split_emits_independent_copies (x : Packet Int) :
    (∃ d ∈ Split.run x, d.slot = 0) ∧
    (∃ d ∈ Split.run x, d.slot = 1) ∧
    (∀ d ∈ Split.run x, d.packet.value = x.value ∧
        d.holder = Holder.outSlot d.slot) ∧
    (∀ d ∈ Split.run x, ∀ e ∈ Split.run x,
        d.packet.pid = e.packet.pid → d = e) ∧
    (∀ d ∈ Split.run x, d.packet.pid ≠ x.pid) := by
  refine ⟨?_, ?_, ?_, ?_, ?_⟩
  · exact ⟨sendPacketToSlot 0 x,
      List.mem_map.mpr ⟨0, by simp [arraySlots], rfl⟩, rfl⟩
  · exact ⟨sendPacketToSlot 1 x,
      List.mem_map.mpr ⟨1, by simp [arraySlots], rfl⟩, rfl⟩
  · intro d hd
    simp only [Split.run, arraySlots, List.mem_map, List.mem_range] at hd
    obtain ⟨i, hi, rfl⟩ := hd
    exact ⟨rfl, rfl⟩
  · intro d hd e he hpe
    simp only [Split.run, arraySlots, List.mem_map, List.mem_range] at hd he
    obtain ⟨i, hi, rfl⟩ := hd
    obtain ⟨j, hj, rfl⟩ := he
    have hij : i = j := by
      simp only [sendPacketToSlot] at hpe
      omega
    rw [hij]
  · intro d hd
    simp only [Split.run, arraySlots, List.mem_map, List.mem_range] at hd
    obtain ⟨i, hi, rfl⟩ := hd
    simp only [sendPacketToSlot]
    omega

/-- C1 witness: the deliveries of `Split.run` on the concrete packet
`⟨5, 0⟩`, instantiated at slot 0's delivery. -/
theorem split_emits_independent_copies_witness :
    (sendPacketToSlot 0 (⟨5, 0⟩ : Packet Int) ∈
        Split.run (⟨5, 0⟩ : Packet Int)) ∧
    (sendPacketToSlot 0 (⟨5, 0⟩ : Packet Int)).packet.value =
        (⟨5, 0⟩ : Packet Int).value ∧
    (sendPacketToSlot 0 (⟨5, 0⟩ : Packet Int)).packet.pid ≠
        (⟨5, 0⟩ : Packet Int).pid :=
  ⟨by decide,
   ((split_emits_independent_copies ⟨5, 0⟩).2.2.1 _ (by decide)).1,
   (split_emits_independent_copies ⟨5, 0⟩).2.2.2.2 _ (by decide)⟩

/-- C2: a RegexFilter whose REGEX input yields "^a" and whose IN input
yields "apple", "banana", "avocado" in that order sends exactly "apple"
then "avocado" on OUT and discards exactly "banana" via drop, in that
event order. -/
theorem regexfilter_caret_a_scenario :
    RegexFilter.run ['^', 'a']
        [⟨['a','p','p','l','e'], 0⟩, ⟨['b','a','n','a','n','a'], 1⟩,
         ⟨['a','v','o','c','a','d','o'], 2⟩] =
      [PEvent.send ⟨['a','p','p','l','e'], 0⟩,
       PEvent.dropped ⟨['b','a','n','a','n','a'], 1⟩,
       PEvent.send ⟨['a','v','o','c','a','d','o'], 2⟩] ∧
    sentPackets (RegexFilter.run ['^', 'a']
        [⟨['a','p','p','l','e'], 0⟩, ⟨['b','a','n','a','n','a'], 1⟩,
         ⟨['a','v','o','c','a','d','o'], 2⟩]) =
      [⟨['a','p','p','l','e'], 0⟩, ⟨['a','v','o','c','a','d','o'], 2⟩] ∧
    droppedPackets (RegexFilter.run ['^', 'a']
        [⟨['a','p','p','l','e'], 0⟩, ⟨['b','a','n','a','n','a'], 1⟩,
         ⟨['a','v','o','c','a','d','o'], 2⟩]) =
      [⟨['b','a','n','a','n','a'], 1⟩] := by
  refine ⟨?_, ?_, ?_⟩ <;> decide

/-- C3: with a positive LIMIT `n`, the generator's run body sends exactly
`n` values on OUT and then calls terminate as its final action, after which
it returns. -/
theorem rng_emits_exactly_limit_then_terminates (prng : Nat → Int) (n : Int)
    (h : 0 < n) :
    Rng.run prng n =
      (List.range n.toNat).map (fun j => RngEvent.send (prng j)) ++
        [RngEvent.terminate] ∧
    rngSends (Rng.run prng n) = (List.range n.toNat).map prng ∧
    (rngSends (Rng.run prng n)).length = n.toNat := by
  have h0 := Rng.loop_sends_until_limit prng n 0 (by exact_mod_cast h)
  rw [Nat.sub_zero] at h0
  have hr : List.range n.toNat = List.range' 0 n.toNat :=
    List.range_eq_range' n.toNat
  have h1 : Rng.run prng n =
      (List.range n.toNat).map (fun j => RngEvent.send (prng j)) ++
        [RngEvent.terminate] := by
    rw [Rng.run, h0, hr]
  refine ⟨h1, ?_, ?_⟩
  · rw [h1, rngSends_sendMap]
  · rw [h1, rngSends_sendMap]
    simp

/-- C3 witness: with LIMIT 5 and a PRNG that always yields 7, the run body
sends exactly five values and then terminates. -/
theorem rng_emits_exactly_limit_then_terminates_witness :
    (0 : Int) < 5 ∧
    Rng.run (fun _ => (7 : Int)) 5 =
      [RngEvent.send 7, RngEvent.send 7, RngEvent.send 7, RngEvent.send 7,
       RngEvent.send 7, RngEvent.terminate] := by
  refine ⟨by decide, ?_⟩
  rw [(rng_emits_exactly_limit_then_terminates (fun _ => (7 : Int)) 5
    (by decide)).1]
  rfl

/-- C4: a Sleep component that received DELAY 0 logs the zero-delay
warning, forwards every IN packet to OUT unchanged and in order, and every
suspension it performs has duration 0 (no observable delay). -/
theorem sleep_zero_delay_forwards_all (inq : List (Packet Int)) :
    (Sleep.run (some 0) inq).warned = true ∧
    (Sleep.run (some 0) inq).out = inq ∧
    (Sleep.run (some 0) inq).suspends = List.replicate inq.length 0 := by
  refine ⟨rfl, ?_, ?_⟩ <;> simp [Sleep.run, Sleep.loop_replicates]

/-- C10: when Sleep's receive on DELAY yields the no-value sentinel, the
run body substitutes a delay of 0 and behaves exactly as if DELAY 0 had
been received, including logging the zero-delay warning. -/
theorem sleep_none_delay_same_as_zero (inq : List (Packet Int)) :
    Sleep.run none inq = Sleep.run (some 0) inq ∧
    (Sleep.run none inq).warned = true :=
  ⟨rfl, rfl⟩

/-- C5: Repeat is the identity on packet streams — fed packets valued
1, 2, 3 it emits 1, 2, 3 in order, and in general reproduces any stream —
and on any single connection the receiver drains packets in exactly the
order they were sent (FIFO). -/
theorem repeat_is_identity_and_connections_are_fifo :
    ((Repeat.runAll [⟨1, 0⟩, ⟨2, 1⟩, ⟨3, 2⟩] : List (Packet Int)).map
        Packet.value = [1, 2, 3]) ∧
    (∀ (α : Type) (l : List (Packet α)), Repeat.runAll l = l) ∧
    (∀ (α : Type) (l : List (Packet α)),
      (Connection.sendAll ⟨[]⟩ l).drain = l) := by
  refine ⟨by decide, fun α l => Repeat.runAll_eq l, fun α l => ?_⟩
  rw [Connection.drain_eq_buffer, Connection.sendAll_buffer]
  simp

/-- C6: the OUT array port of Split iterates its scalar slots 0..9 in index
order, skipping none, and `Split.run` — which never consults slot
connectivity — sends one copy to each of the 10 slots in that order,
unconnected slots included. -/
theorem array_port_iterates_all_slots_in_order (x : Packet Int) :
    arraySlots 10 = [0, 1, 2, 3, 4, 5, 6, 7, 8, 9] ∧
    (Split.run x).map Delivery.slot = [0, 1, 2, 3, 4, 5, 6, 7, 8, 9] ∧
    List.Sorted (fun a b => a < b) ((Split.run x).map Delivery.slot) ∧
    (Split.run x).length = 10 := by
  refine ⟨rfl, rfl, ?_, rfl⟩
  have h : (Split.run x).map Delivery.slot =
      [0, 1, 2, 3, 4, 5, 6, 7, 8, 9] := rfl
  rw [h]
  decide

/-- C7: one invocation of Concat's run body drains the IN array port in
index order — read slot 0, send on OUT, read slot 1, send, and so on
through slot 9 — so reads are strictly increasing in slot index and OUT
receives each slot's packet in index order. -/
theorem concat_drains_slots_in_index_order (head : Nat → Packet Int) :
    Concat.run head =
      [CEvent.readSlot 0 (head 0), CEvent.send (head 0),
       CEvent.readSlot 1 (head 1), CEvent.send (head 1),
       CEvent.readSlot 2 (head 2), CEvent.send (head 2),
       CEvent.readSlot 3 (head 3), CEvent.send (head 3),
       CEvent.readSlot 4 (head 4), CEvent.send (head 4),
       CEvent.readSlot 5 (head 5), CEvent.send (head 5),
       CEvent.readSlot 6 (head 6), CEvent.send (head 6),
       CEvent.readSlot 7 (head 7), CEvent.send (head 7),
       CEvent.readSlot 8 (head 8), CEvent.send (head 8),
       CEvent.readSlot 9 (head 9), CEvent.send (head 9)] ∧
    readSlots (Concat.run head) = arraySlots 10 ∧
    List.Sorted (fun a b => a < b) (readSlots (Concat.run head)) ∧
    outPackets (Concat.run head) = (arraySlots 10).map head := by
  refine ⟨rfl, rfl, ?_, rfl⟩
  have h : readSlots (Concat.run head) =
      [0, 1, 2, 3, 4, 5, 6, 7, 8, 9] := rfl
  rw [h]
  decide

/-- C8: a discarded packet is never sent again — a Drop trace contains no
send events at all, and in a RegexFilter trace a packet that was dropped
never appears in a send event. -/
theorem discarded_packets_never_sent (l : List (Packet Int))
    (regex : List Char) (inq : List (Packet (List Char)))
    (p : Packet Int) (q : Packet (List Char))
    (hq : PEvent.dropped q ∈ RegexFilter.run regex inq) :
    PEvent.send p ∉ Drop.runAll l ∧
    PEvent.send q ∉ RegexFilter.run regex inq := by
  refine ⟨Drop.no_sends l p, fun hs => ?_⟩
  have h1 := RegexFilter.loop_dropped_not_matched
    (fun s => reSearch (reCompileAnchoredLit regex) s) inq q hq
  have h2 := RegexFilter.loop_sent_matched
    (fun s => reSearch (reCompileAnchoredLit regex) s) inq q hs
  rw [h1] at h2
  exact Bool.false_ne_true h2

/-- C8 witness: with regex "^a" and the single input "banana", the packet
is dropped and its packet never appears in a send event; a Drop run on one
packet likewise sends nothing. -/
theorem discarded_packets_never_sent_witness :
    (PEvent.dropped (⟨['b','a','n','a','n','a'], 1⟩ : Packet (List Char)) ∈
        RegexFilter.run ['^', 'a'] [⟨['b','a','n','a','n','a'], 1⟩]) ∧
    (PEvent.send (⟨7, 0⟩ : Packet Int) ∉ Drop.runAll [⟨7, 0⟩] ∧
     PEvent.send (⟨['b','a','n','a','n','a'], 1⟩ : Packet (List Char)) ∉
        RegexFilter.run ['^', 'a'] [⟨['b','a','n','a','n','a'], 1⟩]) :=
  ⟨by decide,
   discarded_packets_never_sent [⟨7, 0⟩] ['^', 'a']
     [⟨['b','a','n','a','n','a'], 1⟩] ⟨7, 0⟩
     ⟨['b','a','n','a','n','a'], 1⟩ (by decide)⟩

/-- C9: one invocation of Multiply's run body, given head values `x` on X
and `y` on Y that convert to the integers `a` and `b`, sends exactly one
value on OUT: the exact integer product `a * b`. -/
theorem multiply_sends_exact_product (x y : Value) (a b : Int)
    (xs ys : List Value) (hx : pyInt x = some a) (hy : pyInt y = some b) :
    Multiply.run (x :: xs) (y :: ys) = some [a * b] := by
  simp [Multiply.run, hx, hy]

/-- C9 witness: 6 on X and 7 on Y produce exactly one sent value, 42. -/
theorem multiply_sends_exact_product_witness :
    pyInt (Value.int 6) = some 6 ∧ pyInt (Value.int 7) = some 7 ∧
    Multiply.run [Value.int 6] [Value.int 7] = some [42] := by
  refine ⟨rfl, rfl, ?_⟩
  exact multiply_sends_exact_product (Value.int 6) (Value.int 7) 6 7 [] []
    rfl rfl

end PFlow
